import Mathlib

/-!
Verification of the NEOS Pizza inventory repository (`src/inventario_app.py`).

We give a shallow embedding of the `Producto` dataclass and the
`Inventario` class: `bd` models the rows of the SQLite table `productos`
(with its PRIMARY KEY and CHECK constraints), and `productos` models the
in-memory Python dict `{id: Producto}` in insertion order (Python dicts
preserve insertion order).  Each CRUD method is translated to a function
returning a result and the next state; an uncaught `sqlite3.IntegrityError`
escaping the method is modelled by the result `Res.raised`.  SQLite
`REAL` values carry no arithmetic in this program (they are only stored
and compared), so prices are embedded as rationals.
-/

/-- The `Producto` dataclass: `id`, `nombre`, `cantidad`, `precio`. -/
structure Producto where
  id : Int
  nombre : String
  cantidad : Int
  precio : Rat
deriving DecidableEq

/-- Repository state: `bd` is the content of the durable SQLite table
`productos`; `productos` is the in-memory dict, as a list of products in
insertion order (the dict key of an entry is always the product's own
`id` field, so a plain list of products suffices). -/
structure Inventario where
  bd : List Producto
  productos : List Producto
deriving DecidableEq

/-- Lookup by key, both for the dict and for `WHERE id = ?` on the
table: the first element carrying the given id. -/
def lookupId (l : List Producto) (i : Int) : Option Producto :=
  l.find? (fun p => p.id == i)

/-- `_existe_id` / `id_ in self.productos`: key membership. -/
def existe_id (l : List Producto) (i : Int) : Bool :=
  (lookupId l i).isSome

/-- Python dict assignment `d[p.id] = p`: overwrite in place when the
key is present (keeping its position), append otherwise. -/
def dictSet (l : List Producto) (p : Producto) : List Producto :=
  if existe_id l p.id then l.map (fun q => if q.id == p.id then p else q)
  else l ++ [p]

/-- Insert into a list kept ascending by id (used to model the
`ORDER BY id` of the load query). -/
def insertById (p : Producto) : List Producto → List Producto
  | [] => [p]
  | q :: qs => if p.id ≤ q.id then p :: q :: qs else q :: insertById p qs

/-- Sort rows ascending by id, as `SELECT ... ORDER BY id` returns them. -/
def ordenarPorId : List Producto → List Producto
  | [] => []
  | p :: ps => insertById p (ordenarPorId ps)

/-- `_cargar_desde_bd`: clear the dict, then assign `d[p.id] = p` for
each row of `SELECT id, nombre, cantidad, precio FROM productos ORDER BY id`. -/
def cargar_desde_bd (bd : List Producto) : List Producto :=
  (ordenarPorId bd).foldl dictSet []

/-- Outcome of one repository call: a returned boolean, a returned list,
or an uncaught exception escaping across the repository boundary. -/
inductive Res where
  | ok (b : Bool)
  | lista (ps : List Producto)
  | raised
deriving DecidableEq

/-- `agregar_producto`: reject a duplicate id (checked against the dict);
otherwise run the `INSERT`.  The `INSERT` raises `IntegrityError` when the
id is already a primary key of the table or a CHECK constraint
(`cantidad >= 0`, `precio >= 0`) fails; that exception is caught by the
method's `try`/`except` and turned into `False` with no state change. -/
def agregar_producto (s : Inventario) (p : Producto) : Res × Inventario :=
  if existe_id s.productos p.id then (.ok false, s)
  else if existe_id s.bd p.id ∨ p.cantidad < 0 ∨ p.precio < 0 then (.ok false, s)
  else (.ok true, ⟨s.bd ++ [p], dictSet s.productos p⟩)

/-- `eliminar_producto`: `False` when the id is absent from the dict;
otherwise `DELETE FROM productos WHERE id = ?`, then `dict.pop`. -/
def eliminar_producto (s : Inventario) (i : Int) : Res × Inventario :=
  if existe_id s.productos i then
    (.ok true, ⟨s.bd.filter (fun p => !(p.id == i)),
                s.productos.filter (fun p => !(p.id == i))⟩)
  else (.ok false, s)

/-- The per-row effect of `UPDATE productos SET cantidad = ? WHERE id = ?`
and of `set_cantidad` on the dict entry. -/
def setCant (i : Int) (q : Int) (p : Producto) : Producto :=
  if p.id == i then { p with cantidad := q } else p

/-- The per-row effect of `UPDATE productos SET precio = ? WHERE id = ?`
and of `set_precio` on the dict entry. -/
def setPrec (i : Int) (v : Rat) (p : Producto) : Producto :=
  if p.id == i then { p with precio := v } else p

/-- `actualizar_cantidad`: `False` when the id is absent from the dict.
Otherwise the `UPDATE` runs with no `try`/`except` around it: when some
table row matches and the new value violates `CHECK (cantidad >= 0)`,
the statement raises `IntegrityError`, which escapes the method with no
state change; otherwise the row and then the dict entry are updated. -/
def actualizar_cantidad (s : Inventario) (i : Int) (q : Int) : Res × Inventario :=
  if existe_id s.productos i then
    if q < 0 ∧ existe_id s.bd i then (.raised, s)
    else (.ok true, ⟨s.bd.map (setCant i q), s.productos.map (setCant i q)⟩)
  else (.ok false, s)

/-- `actualizar_precio`: same shape as `actualizar_cantidad`, for the
`precio` column and `CHECK (precio >= 0)`. -/
def actualizar_precio (s : Inventario) (i : Int) (v : Rat) : Res × Inventario :=
  if existe_id s.productos i then
    if v < 0 ∧ existe_id s.bd i then (.raised, s)
    else (.ok true, ⟨s.bd.map (setPrec i v), s.productos.map (setPrec i v)⟩)
  else (.ok false, s)

/-- Python's `str.lower()` restricted to the ASCII range (the only
case-carrying characters appearing in this program), on character lists. -/
def pyToLower (l : List Char) : List Char :=
  l.map Char.toLower

/-- Python's `str.strip()`: drop leading and trailing whitespace. -/
def pyStrip (l : List Char) : List Char :=
  ((l.dropWhile Char.isWhitespace).reverse.dropWhile Char.isWhitespace).reverse

/-- `needle` occurs at the start of `hay` (character lists). -/
def esPrefijoDe : List Char → List Char → Bool
  | [], _ => true
  | _ :: _, [] => false
  | a :: as, b :: bs => a == b && esPrefijoDe as bs

/-- Python's substring test `needle in hay`, on character lists. -/
def contiene (needle : List Char) : List Char → Bool
  | [] => esPrefijoDe needle []
  | b :: bs => esPrefijoDe needle (b :: bs) || contiene needle bs

/-- `buscar_por_nombre`: normalise the query with `strip().lower()` and
keep the dict values whose lowercased name contains it. -/
def buscar_por_nombre (s : Inventario) (nombre : String) : List Producto :=
  s.productos.filter
    (fun p => contiene (pyToLower (pyStrip nombre.toList)) (pyToLower p.nombre.toList))

/-- `listar_todos`: `list(self.productos.values())`. -/
def listar_todos (s : Inventario) : List Producto :=
  s.productos

/-- The eight example records of `cargar_ejemplo_neos`. -/
def ejemplosNeos : List Producto :=
  [⟨101, "Harina 1kg", 20, mkRat 250 100⟩,
   ⟨102, "Queso Mozzarella 1kg", 15, mkRat 600 100⟩,
   ⟨103, "Salsa de Tomate 500g", 30, mkRat 180 100⟩,
   ⟨104, "Orégano 50g", 40, mkRat 50 100⟩,
   ⟨105, "Caja para Pizza (mediana)", 200, mkRat 30 100⟩,
   ⟨106, "Aceite 1L", 10, mkRat 320 100⟩,
   ⟨107, "Bebida 1.5L", 50, mkRat 150 100⟩,
   ⟨108, "Pepperoni 500g", 12, mkRat 400 100⟩]

/-- `cargar_ejemplo_neos`: return immediately when `listar_todos()` is
truthy (non-empty); otherwise `agregar_producto` each example record,
discarding the booleans. -/
def cargar_ejemplo_neos (inv : Inventario) : Inventario :=
  if listar_todos inv = [] then
    ejemplosNeos.foldl (fun st p => (agregar_producto st p).2) inv
  else inv

/-- One repository call issued by a caller. -/
inductive Op where
  | agregar (p : Producto)
  | eliminar (i : Int)
  | actCantidad (i : Int) (q : Int)
  | actPrecio (i : Int) (v : Rat)
  | buscar (q : String)
  | listar

/-- Dispatch one call to the corresponding method. -/
def step (s : Inventario) : Op → Res × Inventario
  | .agregar p => agregar_producto s p
  | .eliminar i => eliminar_producto s i
  | .actCantidad i q => actualizar_cantidad s i q
  | .actPrecio i v => actualizar_precio s i v
  | .buscar q => (.lista (buscar_por_nombre s q), s)
  | .listar => (.lista (listar_todos s), s)

/-- Run a sequence of calls, threading the state. -/
def run (s : Inventario) : List Op → Inventario
  | [] => s
  | op :: ops => run (step s op).2 ops

/-- The ids of a list of products are pairwise distinct. -/
def idsNodup (l : List Producto) : Prop :=
  (l.map Producto.id).Nodup

/-- Well-formed repository state: the dict keys are distinct, the table
ids are distinct (its PRIMARY KEY), and dict and table hold the same
record for every id. -/
def WF (s : Inventario) : Prop :=
  idsNodup s.productos ∧ idsNodup s.bd ∧
    ∀ i, lookupId s.productos i = lookupId s.bd i

/-- Specification-level reading of substring containment: `hay`
contains `needle` as a contiguous substring. -/
def esSubcadena (needle hay : List Char) : Prop :=
  ∃ l r, hay = l ++ needle ++ r

/-- A fresh repository over an empty store. -/
def inv0 : Inventario := ⟨[], []⟩

/-- A sample product. -/
def pDemo : Producto := ⟨1, "Harina 1kg", 5, 2⟩

/-- A repository holding just `pDemo`, in sync with its store. -/
def sDemo : Inventario := ⟨[pDemo], [pDemo]⟩

/-- A second sample product. -/
def pDemo2 : Producto := ⟨2, "Aceite 1L", 3, 1⟩

/-- A repository holding just `pDemo2`, in sync with its store. -/
def sDemo2 : Inventario := ⟨[pDemo2], [pDemo2]⟩

/-- A repository holding `pDemo` and `pDemo2`, in sync with its store. -/
def sDemo3 : Inventario := ⟨[pDemo, pDemo2], [pDemo, pDemo2]⟩

/-- The mozzarella example record from the seed data. -/
def pQueso : Producto := ⟨102, "Queso Mozzarella 1kg", 15, mkRat 600 100⟩

/-- A repository holding just `pQueso`, in sync with its store. -/
def sQueso : Inventario := ⟨[pQueso], [pQueso]⟩

/-! ### Basic facts about `lookupId` and `existe_id` -/

theorem lookupId_nil (i : Int) : lookupId [] i = none := rfl

theorem lookupId_cons (p : Producto) (l : List Producto) (i : Int) :
    lookupId (p :: l) i = if p.id = i then some p else lookupId l i := by
  by_cases h : p.id = i
  · have hb : (p.id == i) = true := beq_iff_eq.mpr h
    simp [lookupId, List.find?, hb, h]
  · have hb : (p.id == i) = false := beq_eq_false_iff_ne.mpr h
    simp [lookupId, List.find?, hb, h]

theorem lookupId_eq_some {l : List Producto} {i : Int} {p : Producto}
    (h : lookupId l i = some p) : p ∈ l ∧ p.id = i := by
  induction l with
  | nil => simp [lookupId_nil] at h
  | cons q l ih =>
    rw [lookupId_cons] at h
    by_cases hq : q.id = i
    · rw [if_pos hq] at h
      injection h with h
      subst h
      exact ⟨List.mem_cons_self _ _, hq⟩
    · rw [if_neg hq] at h
      rcases ih h with ⟨hmem, hid⟩
      exact ⟨List.mem_cons_of_mem q hmem, hid⟩

theorem lookupId_eq_none {l : List Producto} {i : Int} :
    lookupId l i = none ↔ ∀ p ∈ l, p.id ≠ i := by
  induction l with
  | nil => simp [lookupId_nil]
  | cons q l ih =>
    rw [lookupId_cons]
    by_cases hq : q.id = i
    · simp [hq]
    · simp [hq, ih]

theorem existe_id_eq_false {l : List Producto} {i : Int} :
    existe_id l i = false ↔ ∀ p ∈ l, p.id ≠ i := by
  rw [existe_id, ← lookupId_eq_none]
  cases h : lookupId l i <;> simp [h]

theorem lookupId_of_mem {l : List Producto} {p : Producto}
    (hnd : idsNodup l) (hmem : p ∈ l) : lookupId l p.id = some p := by
  induction l with
  | nil => cases hmem
  | cons q l ih =>
    rw [idsNodup, List.map_cons, List.nodup_cons] at hnd
    rw [lookupId_cons]
    rcases List.mem_cons.mp hmem with h | h
    · subst h; simp
    · by_cases hq : q.id = p.id
      · exact absurd (hq ▸ List.mem_map_of_mem Producto.id h) hnd.1
      · rw [if_neg hq]
        exact ih hnd.2 h

theorem lookupId_perm {l l' : List Producto} (hperm : l.Perm l')
    (hnd : idsNodup l) (i : Int) : lookupId l i = lookupId l' i := by
  have hnd' : idsNodup l' := ((hperm.map Producto.id).nodup_iff).mp hnd
  cases h : lookupId l i with
  | none =>
    symm
    rw [lookupId_eq_none] at h ⊢
    intro p hp
    exact h p (hperm.symm.subset hp)
  | some p =>
    rcases lookupId_eq_some h with ⟨hmem, hid⟩
    rw [← hid, lookupId_of_mem hnd' (hperm.subset hmem)]

theorem lookupId_append (l l' : List Producto) (i : Int) :
    lookupId (l ++ l') i =
      match lookupId l i with
      | some p => some p
      | none => lookupId l' i := by
  induction l with
  | nil => simp [lookupId_nil]
  | cons q l ih =>
    rw [List.cons_append, lookupId_cons, lookupId_cons]
    by_cases hq : q.id = i
    · simp [hq]
    · simp only [if_neg hq]
      exact ih

theorem lookupId_filter_ne (l : List Producto) (i j : Int) :
    lookupId (l.filter (fun p => !(p.id == i))) j =
      if j = i then none else lookupId l j := by
  induction l with
  | nil => simp [lookupId_nil]
  | cons q l ih =>
    by_cases hq : q.id = i
    · rw [List.filter_cons_of_neg (by simp [hq]), ih, lookupId_cons]
      by_cases hji : j = i
      · simp [hji]
      · have hqj : ¬ q.id = j := by
          rw [hq]
          intro h
          exact hji h.symm
        simp [hji, hqj]
    · rw [List.filter_cons_of_pos (by simp [hq]), lookupId_cons, lookupId_cons, ih]
      by_cases hqj : q.id = j
      · have hji : ¬ j = i := fun h => hq (hqj.trans h)
        simp [hqj, hji]
      · simp [hqj]

theorem lookupId_map {f : Producto → Producto} (hf : ∀ p, (f p).id = p.id)
    (l : List Producto) (j : Int) :
    lookupId (l.map f) j = (lookupId l j).map f := by
  induction l with
  | nil => simp [lookupId_nil]
  | cons q l ih =>
    rw [List.map_cons, lookupId_cons, lookupId_cons, hf]
    by_cases hq : q.id = j
    · simp [hq]
    · simp only [if_neg hq]
      exact ih

/-! ### Reloading from the store (`_cargar_desde_bd`) -/

theorem insertById_perm (p : Producto) (l : List Producto) :
    (insertById p l).Perm (p :: l) := by
  induction l with
  | nil => exact List.Perm.refl _
  | cons q qs ih =>
    rw [insertById]
    by_cases h : p.id ≤ q.id
    · rw [if_pos h]
    · rw [if_neg h]
      exact (ih.cons q).trans (List.Perm.swap p q qs)

theorem ordenarPorId_perm (l : List Producto) : (ordenarPorId l).Perm l := by
  induction l with
  | nil => exact List.Perm.refl _
  | cons p ps ih =>
    rw [ordenarPorId]
    exact (insertById_perm p (ordenarPorId ps)).trans (ih.cons p)

theorem idsNodup_of_perm {l l' : List Producto} (hperm : l.Perm l')
    (hnd : idsNodup l) : idsNodup l' :=
  ((hperm.map Producto.id).nodup_iff).mp hnd

theorem foldl_dictSet_of_nodup (l : List Producto) :
    ∀ acc : List Producto, idsNodup (acc ++ l) → l.foldl dictSet acc = acc ++ l := by
  induction l with
  | nil => intro acc _; simp
  | cons p ps ih =>
    intro acc hnd
    have hfresh : existe_id acc p.id = false := by
      rw [existe_id_eq_false]
      intro q hq hqid
      rw [idsNodup, List.map_append, List.nodup_append] at hnd
      exact hnd.2.2 (List.mem_map_of_mem Producto.id hq)
        (by rw [List.map_cons, hqid]; exact List.mem_cons_self _ _)
    have hset : dictSet acc p = acc ++ [p] := by
      rw [dictSet, if_neg (by rw [hfresh]; exact Bool.false_ne_true)]
    rw [List.foldl_cons, hset, ih (acc ++ [p]) (by simpa using hnd)]
    simp

theorem cargar_desde_bd_lookup {bd : List Producto} (hnd : idsNodup bd) (i : Int) :
    lookupId (cargar_desde_bd bd) i = lookupId bd i := by
  have hperm := ordenarPorId_perm bd
  have hnd' : idsNodup (ordenarPorId bd) := idsNodup_of_perm hperm.symm hnd
  rw [cargar_desde_bd, foldl_dictSet_of_nodup _ [] (by simpa using hnd'),
    List.nil_append]
  exact lookupId_perm hperm hnd' i

/-! ### Preservation of well-formedness by every operation -/

theorem setCant_id (i q : Int) (p : Producto) : (setCant i q p).id = p.id := by
  rw [setCant]
  split <;> rfl

theorem setPrec_id (i : Int) (v : Rat) (p : Producto) : (setPrec i v p).id = p.id := by
  rw [setPrec]
  split <;> rfl

theorem idsNodup_map {f : Producto → Producto} (hf : ∀ p, (f p).id = p.id)
    {l : List Producto} (hnd : idsNodup l) : idsNodup (l.map f) := by
  rw [idsNodup, List.map_map]
  have hcomp : Producto.id ∘ f = Producto.id := funext hf
  rw [hcomp]
  exact hnd

theorem idsNodup_filter (pred : Producto → Bool) {l : List Producto}
    (hnd : idsNodup l) : idsNodup (l.filter pred) :=
  List.Nodup.sublist ((List.filter_sublist l).map Producto.id) hnd

theorem idsNodup_concat {l : List Producto} {p : Producto}
    (hnd : idsNodup l) (hfresh : lookupId l p.id = none) : idsNodup (l ++ [p]) := by
  rw [idsNodup, List.map_append, List.nodup_append]
  refine ⟨hnd, List.nodup_singleton _, ?_⟩
  intro a ha hb
  rcases List.mem_map.mp ha with ⟨q, hq, rfl⟩
  have hqp : q.id = p.id := by simpa using hb
  exact (lookupId_eq_none.mp hfresh q hq) hqp

theorem WF_step {s : Inventario} (op : Op) (h : WF s) : WF (step s op).2 := by
  obtain ⟨hp, hb, hsync⟩ := h
  cases op with
  | agregar p =>
    simp only [step, agregar_producto]
    split
    · exact ⟨hp, hb, hsync⟩
    next h1 =>
      split
      · exact ⟨hp, hb, hsync⟩
      next h2 =>
        have hfreshp : lookupId s.productos p.id = none := by
          cases hlp : lookupId s.productos p.id with
          | none => rfl
          | some q => exact absurd (by rw [existe_id, hlp]; rfl) h1
        have hfreshb : lookupId s.bd p.id = none := (hsync p.id).symm.trans hfreshp
        have hset : dictSet s.productos p = s.productos ++ [p] := by
          rw [dictSet, if_neg h1]
        refine ⟨?_, ?_, ?_⟩
        · show idsNodup (dictSet s.productos p)
          rw [hset]
          exact idsNodup_concat hp hfreshp
        · exact idsNodup_concat hb hfreshb
        · intro j
          show lookupId (dictSet s.productos p) j = lookupId (s.bd ++ [p]) j
          rw [hset, lookupId_append, lookupId_append, hsync j]
  | eliminar i =>
    simp only [step, eliminar_producto]
    split
    · refine ⟨idsNodup_filter _ hp, idsNodup_filter _ hb, ?_⟩
      intro j
      show lookupId (s.productos.filter _) j = lookupId (s.bd.filter _) j
      rw [lookupId_filter_ne, lookupId_filter_ne]
      by_cases hji : j = i
      · simp [hji]
      · simp [hji, hsync j]
    · exact ⟨hp, hb, hsync⟩
  | actCantidad i q =>
    simp only [step, actualizar_cantidad]
    split
    · split
      · exact ⟨hp, hb, hsync⟩
      · refine ⟨idsNodup_map (setCant_id i q) hp, idsNodup_map (setCant_id i q) hb, ?_⟩
        intro j
        show lookupId (s.productos.map _) j = lookupId (s.bd.map _) j
        rw [lookupId_map (setCant_id i q), lookupId_map (setCant_id i q), hsync j]
    · exact ⟨hp, hb, hsync⟩
  | actPrecio i v =>
    simp only [step, actualizar_precio]
    split
    · split
      · exact ⟨hp, hb, hsync⟩
      · refine ⟨idsNodup_map (setPrec_id i v) hp, idsNodup_map (setPrec_id i v) hb, ?_⟩
        intro j
        show lookupId (s.productos.map _) j = lookupId (s.bd.map _) j
        rw [lookupId_map (setPrec_id i v), lookupId_map (setPrec_id i v), hsync j]
    · exact ⟨hp, hb, hsync⟩
  | buscar q => exact ⟨hp, hb, hsync⟩
  | listar => exact ⟨hp, hb, hsync⟩

theorem WF_run {s : Inventario} (ops : List Op) (h : WF s) : WF (run s ops) := by
  induction ops generalizing s with
  | nil => exact h
  | cons op ops ih => exact ih (WF_step op h)

/-! ### Well-formedness of the concrete sample states -/

theorem inv0_WF : WF inv0 :=
  ⟨List.nodup_nil, List.nodup_nil, fun _ => rfl⟩

theorem sDemo_WF : WF sDemo :=
  ⟨by show (sDemo.productos.map Producto.id).Nodup; decide,
   by show (sDemo.bd.map Producto.id).Nodup; decide,
   fun _ => rfl⟩

theorem sDemo2_WF : WF sDemo2 :=
  ⟨by show (sDemo2.productos.map Producto.id).Nodup; decide,
   by show (sDemo2.bd.map Producto.id).Nodup; decide,
   fun _ => rfl⟩

theorem sDemo3_WF : WF sDemo3 :=
  ⟨by show (sDemo3.productos.map Producto.id).Nodup; decide,
   by show (sDemo3.bd.map Producto.id).Nodup; decide,
   fun _ => rfl⟩

theorem sQueso_WF : WF sQueso :=
  ⟨by show (sQueso.productos.map Producto.id).Nodup; decide,
   by show (sQueso.bd.map Producto.id).Nodup; decide,
   fun _ => rfl⟩

/-! ### Further helper lemmas -/

theorem existe_id_false_iff_lookup_none {l : List Producto} {i : Int} :
    existe_id l i = false ↔ lookupId l i = none := by
  rw [existe_id_eq_false, lookupId_eq_none]

theorem filter_id_eq_nil {l : List Producto} {i : Int}
    (h : lookupId l i = none) : l.filter (fun q => q.id == i) = [] := by
  induction l with
  | nil => rfl
  | cons p ps ih =>
    rw [lookupId_cons] at h
    by_cases hp : p.id = i
    · rw [if_pos hp] at h
      cases h
    · rw [if_neg hp] at h
      rw [List.filter_cons_of_neg (by simp [hp]), ih h]

theorem eq_nil_of_lookup_none {l : List Producto}
    (h : ∀ i, lookupId l i = none) : l = [] := by
  cases l with
  | nil => rfl
  | cons p ps =>
    exfalso
    have hp := h p.id
    rw [lookupId_cons, if_pos rfl] at hp
    cases hp

theorem lookupId_map_setCant_self (l : List Producto) (i q : Int) :
    lookupId (l.map (setCant i q)) i =
      (lookupId l i).map (fun p => { p with cantidad := q }) := by
  rw [lookupId_map (setCant_id i q)]
  cases hlp : lookupId l i with
  | none => rfl
  | some p =>
    have hid : p.id = i := (lookupId_eq_some hlp).2
    simp [setCant, hid]

theorem lookupId_map_setCant_ne (l : List Producto) {i j : Int} (q : Int)
    (hji : j ≠ i) : lookupId (l.map (setCant i q)) j = lookupId l j := by
  rw [lookupId_map (setCant_id i q)]
  cases hlp : lookupId l j with
  | none => rfl
  | some p =>
    have hid : p.id = j := (lookupId_eq_some hlp).2
    simp [setCant, hid, hji]

theorem lookupId_map_setPrec_self (l : List Producto) (i : Int) (v : Rat) :
    lookupId (l.map (setPrec i v)) i =
      (lookupId l i).map (fun p => { p with precio := v }) := by
  rw [lookupId_map (setPrec_id i v)]
  cases hlp : lookupId l i with
  | none => rfl
  | some p =>
    have hid : p.id = i := (lookupId_eq_some hlp).2
    simp [setPrec, hid]

theorem lookupId_map_setPrec_ne (l : List Producto) {i j : Int} (v : Rat)
    (hji : j ≠ i) : lookupId (l.map (setPrec i v)) j = lookupId l j := by
  rw [lookupId_map (setPrec_id i v)]
  cases hlp : lookupId l j with
  | none => rfl
  | some p =>
    have hid : p.id = j := (lookupId_eq_some hlp).2
    simp [setPrec, hid, hji]

/-! ### Substring containment: `contiene` agrees with `esSubcadena` -/

theorem esPrefijoDe_iff (n : List Char) :
    ∀ h : List Char, esPrefijoDe n h = true ↔ ∃ r, h = n ++ r := by
  induction n with
  | nil =>
    intro h
    constructor
    · intro _
      exact ⟨h, rfl⟩
    · intro _
      rfl
  | cons a as ih =>
    intro h
    cases h with
    | nil =>
      constructor
      · intro hfalse
        exact absurd hfalse (by rw [esPrefijoDe]; exact Bool.false_ne_true)
      · rintro ⟨r, hr⟩
        exact absurd hr (by simp)
    | cons b bs =>
      rw [esPrefijoDe, Bool.and_eq_true]
      constructor
      · rintro ⟨hab, hpre⟩
        have hab' : a = b := beq_iff_eq.mp hab
        rcases (ih bs).mp hpre with ⟨r, hr⟩
        subst hab'
        exact ⟨r, by simp [hr]⟩
      · rintro ⟨r, hr⟩
        injection hr with h1 h2
        exact ⟨beq_iff_eq.mpr h1.symm, (ih bs).mpr ⟨r, h2⟩⟩

theorem contiene_iff (n : List Char) :
    ∀ h : List Char, contiene n h = true ↔ esSubcadena n h := by
  intro h
  induction h with
  | nil =>
    cases n with
    | nil =>
      constructor
      · intro _
        exact ⟨[], [], rfl⟩
      · intro _
        rfl
    | cons a as =>
      constructor
      · intro hfalse
        exact absurd hfalse (by rw [contiene, esPrefijoDe]; exact Bool.false_ne_true)
      · rintro ⟨l, r, hr⟩
        exfalso
        have hlen := congrArg List.length hr
        simp at hlen
        omega
  | cons b bs ih =>
    rw [contiene, Bool.or_eq_true]
    constructor
    · rintro (hpre | hrest)
      · rcases (esPrefijoDe_iff n (b :: bs)).mp hpre with ⟨r, hr⟩
        exact ⟨[], r, by simpa using hr⟩
      · rcases ih.mp hrest with ⟨l, r, hr⟩
        exact ⟨b :: l, r, by rw [List.cons_append, List.cons_append, ← hr]⟩
    · rintro ⟨l, r, hr⟩
      cases l with
      | nil =>
        left
        exact (esPrefijoDe_iff n (b :: bs)).mpr ⟨r, by simpa using hr⟩
      | cons c cs =>
        right
        rw [List.cons_append, List.cons_append] at hr
        injection hr with h1 h2
        exact ih.mpr ⟨cs, r, by rw [h2, List.append_assoc]⟩

theorem contiene_nil_left : ∀ h : List Char, contiene [] h = true := by
  intro h
  induction h with
  | nil => rfl
  | cons b bs ih =>
    rw [contiene, Bool.or_eq_true]
    left
    rfl

/-! ### Absence of an identifier is preserved by non-adding calls -/

theorem existe_false_step {s : Inventario} {i : Int} (op : Op)
    (h : existe_id s.productos i = false)
    (hop : ∀ p, op = Op.agregar p → p.id ≠ i) :
    existe_id (step s op).2.productos i = false := by
  rw [existe_id_false_iff_lookup_none] at h ⊢
  cases op with
  | agregar p =>
    have hpi : p.id ≠ i := hop p rfl
    simp only [step, agregar_producto]
    split
    · exact h
    next h1 =>
      split
      · exact h
      · show lookupId (dictSet s.productos p) i = none
        rw [dictSet, if_neg h1, lookupId_append, h]
        rw [lookupId_cons, if_neg hpi, lookupId_nil]
  | eliminar j =>
    simp only [step, eliminar_producto]
    split
    · show lookupId (s.productos.filter _) i = none
      rw [lookupId_filter_ne]
      by_cases hij : i = j
      · simp [hij]
      · simp [hij, h]
    · exact h
  | actCantidad j q =>
    simp only [step, actualizar_cantidad]
    split
    · split
      · exact h
      · show lookupId (s.productos.map _) i = none
        rw [lookupId_map (setCant_id j q), h]
        rfl
    · exact h
  | actPrecio j v =>
    simp only [step, actualizar_precio]
    split
    · split
      · exact h
      · show lookupId (s.productos.map _) i = none
        rw [lookupId_map (setPrec_id j v), h]
        rfl
    · exact h
  | buscar q => exact h
  | listar => exact h

theorem existe_false_run {s : Inventario} {i : Int} (ops : List Op)
    (h : existe_id s.productos i = false)
    (hops : ∀ p, Op.agregar p ∈ ops → p.id ≠ i) :
    existe_id (run s ops).productos i = false := by
  induction ops generalizing s with
  | nil => exact h
  | cons op ops ih =>
    exact ih
      (existe_false_step op h
        (fun p hp => hops p (by rw [hp]; exact List.mem_cons_self _ _)))
      (fun p hp => hops p (List.mem_cons_of_mem _ hp))

/-! ### The claims -/

/-- C1: starting from a well-formed state, after any sequence of
repository calls the in-memory mapping agrees exactly with the durable
store (for every identifier both hold the same record, hence the same
set of identifiers and the same name/quantity/price), and rebuilding a
fresh mapping from the resulting store via `_cargar_desde_bd`
(simulating restart) reproduces the in-memory mapping identically. -/
theorem C1_sync_and_reload (s : Inventario) (ops : List Op) (h : WF s) :
    (∀ i, lookupId (run s ops).productos i = lookupId (run s ops).bd i) ∧
    (∀ i, lookupId (cargar_desde_bd (run s ops).bd) i =
      lookupId (run s ops).productos i) := by
  have hwf := WF_run ops h
  refine ⟨hwf.2.2, fun i => ?_⟩
  rw [cargar_desde_bd_lookup hwf.2.1 i, hwf.2.2 i]

/-- Witness for C1 at a concrete run: add two products, update one,
delete the other. -/
theorem C1_sync_and_reload_witness :
    lookupId (run inv0 [Op.agregar pDemo, Op.agregar pDemo2,
      Op.actCantidad 1 9, Op.eliminar 2]).productos 1 =
      lookupId (run inv0 [Op.agregar pDemo, Op.agregar pDemo2,
        Op.actCantidad 1 9, Op.eliminar 2]).bd 1 ∧
    lookupId (cargar_desde_bd (run inv0 [Op.agregar pDemo, Op.agregar pDemo2,
      Op.actCantidad 1 9, Op.eliminar 2]).bd) 1 =
      lookupId (run inv0 [Op.agregar pDemo, Op.agregar pDemo2,
        Op.actCantidad 1 9, Op.eliminar 2]).productos 1 :=
  ⟨(C1_sync_and_reload inv0 [Op.agregar pDemo, Op.agregar pDemo2,
      Op.actCantidad 1 9, Op.eliminar 2] inv0_WF).1 1,
   (C1_sync_and_reload inv0 [Op.agregar pDemo, Op.agregar pDemo2,
      Op.actCantidad 1 9, Op.eliminar 2] inv0_WF).2 1⟩

/-- C4: `agregar_producto` with an identifier already present returns
`False` and leaves the mapping and the store completely unchanged. -/
theorem C4_duplicate_add (s : Inventario) (p : Producto)
    (h : existe_id s.productos p.id = true) :
    agregar_producto s p = (Res.ok false, s) := by
  rw [agregar_producto, if_pos h]

/-- Witness for C4: re-adding id 1 to `sDemo` fails and changes nothing. -/
theorem C4_duplicate_add_witness :
    agregar_producto sDemo ⟨1, "Harina 2kg", 9, 9⟩ = (Res.ok false, sDemo) :=
  C4_duplicate_add sDemo ⟨1, "Harina 2kg", 9, 9⟩ (by decide)

/-- C10: `buscar_por_nombre` and `listar_todos` are read-only: the
state (mapping and store) after either call is the state before it. -/
theorem C10_reads_pure (s : Inventario) (nombre : String) :
    (step s (Op.buscar nombre)).2 = s ∧ (step s Op.listar).2 = s :=
  ⟨rfl, rfl⟩

/-- C2 (counterexample): a store constraint violation during
`actualizar_cantidad` is NOT converted into a boolean failure: on a
state holding id 1, setting its quantity to -1 makes the call raise
across the repository boundary instead of returning `False`. -/
theorem C2_counterexample :
    (actualizar_cantidad sDemo 1 (-1)).1 = Res.raised ∧
    Res.raised ≠ Res.ok false ∧ Res.raised ≠ Res.ok true := by
  decide

/-- C2 (amended): duplicate id, not-found, and a constraint violation
during `agregar_producto` are all reported as the boolean `False` with
no state change and no exception; but a constraint violation during
`actualizar_cantidad` or `actualizar_precio` (a negative value reaching
the store while the row exists) escapes as an uncaught exception,
leaving mapping and store unchanged. -/
theorem C2_amended (s : Inventario) (h : WF s) (p : Producto) (i : Int)
    (q : Int) (v : Rat) :
    (existe_id s.productos p.id = false → (p.cantidad < 0 ∨ p.precio < 0) →
      agregar_producto s p = (Res.ok false, s)) ∧
    (existe_id s.productos p.id = true →
      agregar_producto s p = (Res.ok false, s)) ∧
    (existe_id s.productos i = false →
      actualizar_cantidad s i q = (Res.ok false, s) ∧
      actualizar_precio s i v = (Res.ok false, s) ∧
      eliminar_producto s i = (Res.ok false, s)) ∧
    (existe_id s.productos i = true → q < 0 →
      actualizar_cantidad s i q = (Res.raised, s)) ∧
    (existe_id s.productos i = true → v < 0 →
      actualizar_precio s i v = (Res.raised, s)) := by
  have hbd : ∀ j, existe_id s.bd j = existe_id s.productos j := by
    intro j
    rw [existe_id, existe_id, h.2.2 j]
  refine ⟨?_, ?_, ?_, ?_, ?_⟩
  · intro hfresh hneg
    rw [agregar_producto, if_neg (by rw [hfresh]; exact Bool.false_ne_true),
      if_pos (Or.inr hneg)]
  · intro hdup
    rw [agregar_producto, if_pos hdup]
  · intro habs
    have hne : ¬ existe_id s.productos i = true := by
      rw [habs]
      exact Bool.false_ne_true
    exact ⟨by rw [actualizar_cantidad, if_neg hne],
           by rw [actualizar_precio, if_neg hne],
           by rw [eliminar_producto, if_neg hne]⟩
  · intro hpres hq
    rw [actualizar_cantidad, if_pos hpres, if_pos ⟨hq, by rw [hbd i]; exact hpres⟩]
  · intro hpres hv
    rw [actualizar_precio, if_pos hpres, if_pos ⟨hv, by rw [hbd i]; exact hpres⟩]

/-- Witness for C2 (amended): on `sDemo`, adding a duplicate of id 1
returns `False` unchanged, and setting a negative price on id 1
raises, unchanged. -/
theorem C2_amended_witness :
    agregar_producto sDemo ⟨1, "Queso Mozzarella 1kg", 3, 1⟩ = (Res.ok false, sDemo) ∧
    actualizar_precio sDemo 1 (-2) = (Res.raised, sDemo) :=
  ⟨(C2_amended sDemo sDemo_WF ⟨1, "Queso Mozzarella 1kg", 3, 1⟩ 1 0 (-2)).2.1
      (by decide),
   (C2_amended sDemo sDemo_WF ⟨1, "Queso Mozzarella 1kg", 3, 1⟩ 1 0 (-2)).2.2.2.2
      (by decide) (by decide)⟩

/-- C3 (counterexample): a product with a fresh identifier but a
negative quantity is NOT added successfully: on the empty repository,
id 7 is fresh, yet `agregar_producto` returns `False` (the store CHECK
constraint rejects the insert). -/
theorem C3_counterexample :
    existe_id inv0.productos 7 = false ∧
    (agregar_producto inv0 ⟨7, "Harina 1kg", -1, 2⟩).1 = Res.ok false ∧
    Res.ok false ≠ Res.ok true := by
  decide

/-- C3 (amended): on a well-formed state, for every product `p` with
non-negative quantity and price whose identifier is not present,
`agregar_producto` returns `True`, and `listar_todos` afterwards
contains exactly one product with that identifier, equal to `p`. -/
theorem C3_amended (s : Inventario) (p : Producto) (h : WF s)
    (hfresh : existe_id s.productos p.id = false)
    (hq : 0 ≤ p.cantidad) (hv : 0 ≤ p.precio) :
    (agregar_producto s p).1 = Res.ok true ∧
    (listar_todos (agregar_producto s p).2).filter (fun q => q.id == p.id) = [p] := by
  have hlookp : lookupId s.productos p.id = none :=
    existe_id_false_iff_lookup_none.mp hfresh
  have hlookb : lookupId s.bd p.id = none := (h.2.2 p.id).symm.trans hlookp
  have hnot1 : ¬ existe_id s.productos p.id = true := by
    rw [hfresh]
    exact Bool.false_ne_true
  have hnot2 : ¬ (existe_id s.bd p.id = true ∨ p.cantidad < 0 ∨ p.precio < 0) := by
    rintro (h1 | h2 | h3)
    · rw [existe_id, hlookb] at h1
      cases h1
    · exact absurd hq (not_le.mpr h2)
    · exact absurd hv (not_le.mpr h3)
  rw [agregar_producto, if_neg hnot1, if_neg hnot2]
  refine ⟨rfl, ?_⟩
  show (dictSet s.productos p).filter (fun q => q.id == p.id) = [p]
  rw [dictSet, if_neg hnot1, List.filter_append, filter_id_eq_nil hlookp]
  simp

/-- Witness for C3 (amended): adding id 2 to the empty repository
succeeds and lists exactly that product. -/
theorem C3_amended_witness :
    (agregar_producto inv0 pDemo2).1 = Res.ok true ∧
    (listar_todos (agregar_producto inv0 pDemo2).2).filter
      (fun q => q.id == pDemo2.id) = [pDemo2] :=
  C3_amended inv0 pDemo2 inv0_WF (by decide) (by decide) (by decide)

/-- C5 (counterexample): on a state holding id 2, `actualizar_precio`
with the negative value -1 does not update the product's price field:
it raises across the repository boundary and the state is unchanged. -/
theorem C5_counterexample :
    existe_id sDemo2.productos 2 = true ∧
    actualizar_precio sDemo2 2 (-1) = (Res.raised, sDemo2) ∧
    Res.raised ≠ Res.ok true := by
  decide

/-- C5 (amended): for a present identifier `i`
and non-negative new values, `actualizar_cantidad i q` updates exactly
the quantity field of the product with id `i` (and `actualizar_precio
i v` exactly its price field) in both mapping and store, leaving every
other identifier's record untouched; on an absent identifier both
return `False` and change nothing.  (A negative new value instead
raises — see C2.) -/
theorem C5_amended (s : Inventario) (i : Int) (q : Int) (v : Rat)
    (hq : 0 ≤ q) (hv : 0 ≤ v) :
    (existe_id s.productos i = true →
      (actualizar_cantidad s i q).1 = Res.ok true ∧
      (actualizar_precio s i v).1 = Res.ok true ∧
      lookupId (actualizar_cantidad s i q).2.productos i =
        (lookupId s.productos i).map (fun p => { p with cantidad := q }) ∧
      lookupId (actualizar_cantidad s i q).2.bd i =
        (lookupId s.bd i).map (fun p => { p with cantidad := q }) ∧
      lookupId (actualizar_precio s i v).2.productos i =
        (lookupId s.productos i).map (fun p => { p with precio := v }) ∧
      lookupId (actualizar_precio s i v).2.bd i =
        (lookupId s.bd i).map (fun p => { p with precio := v }) ∧
      (∀ j, j ≠ i →
        lookupId (actualizar_cantidad s i q).2.productos j = lookupId s.productos j ∧
        lookupId (actualizar_cantidad s i q).2.bd j = lookupId s.bd j ∧
        lookupId (actualizar_precio s i v).2.productos j = lookupId s.productos j ∧
        lookupId (actualizar_precio s i v).2.bd j = lookupId s.bd j)) ∧
    (existe_id s.productos i = false →
      actualizar_cantidad s i q = (Res.ok false, s) ∧
      actualizar_precio s i v = (Res.ok false, s)) := by
  constructor
  · intro hpres
    have hnoq : ¬ (q < 0 ∧ existe_id s.bd i = true) :=
      fun hc => absurd hq (not_le.mpr hc.1)
    have hnov : ¬ (v < 0 ∧ existe_id s.bd i = true) :=
      fun hc => absurd hv (not_le.mpr hc.1)
    rw [actualizar_cantidad, if_pos hpres, if_neg hnoq,
      actualizar_precio, if_pos hpres, if_neg hnov]
    refine ⟨rfl, rfl, ?_, ?_, ?_, ?_, ?_⟩
    · exact lookupId_map_setCant_self s.productos i q
    · exact lookupId_map_setCant_self s.bd i q
    · exact lookupId_map_setPrec_self s.productos i v
    · exact lookupId_map_setPrec_self s.bd i v
    · intro j hji
      exact ⟨lookupId_map_setCant_ne s.productos q hji,
             lookupId_map_setCant_ne s.bd q hji,
             lookupId_map_setPrec_ne s.productos v hji,
             lookupId_map_setPrec_ne s.bd v hji⟩
  · intro habs
    have hne : ¬ existe_id s.productos i = true := by
      rw [habs]
      exact Bool.false_ne_true
    exact ⟨by rw [actualizar_cantidad, if_neg hne],
           by rw [actualizar_precio, if_neg hne]⟩

/-- Witness for C5 (amended): on the two-product state, updating the
quantity of id 1 succeeds and leaves id 2's record untouched. -/
theorem C5_amended_witness :
    (actualizar_cantidad sDemo3 1 7).1 = Res.ok true ∧
    lookupId (actualizar_cantidad sDemo3 1 7).2.productos 2 =
      lookupId sDemo3.productos 2 :=
  ⟨((C5_amended sDemo3 1 7 0 (by decide) (by decide)).1 (by decide)).1,
   (((C5_amended sDemo3 1 7 0 (by decide) (by decide)).1
      (by decide)).2.2.2.2.2.2 2 (by decide)).1⟩

/-- C6: removing a present identifier returns `True` and afterwards —
for any further sequence of calls that never re-adds that identifier —
neither `listar_todos` nor `buscar_por_nombre` ever returns a product
with it; removing an absent identifier returns `False` and leaves
mapping and store unchanged. -/
theorem C6_remove (s : Inventario) (i : Int) :
    (existe_id s.productos i = true →
      (eliminar_producto s i).1 = Res.ok true ∧
      ∀ ops, (∀ p, Op.agregar p ∈ ops → p.id ≠ i) →
        (∀ p ∈ listar_todos (run (eliminar_producto s i).2 ops), p.id ≠ i) ∧
        (∀ nq p, p ∈ buscar_por_nombre (run (eliminar_producto s i).2 ops) nq →
          p.id ≠ i)) ∧
    (existe_id s.productos i = false →
      eliminar_producto s i = (Res.ok false, s)) := by
  constructor
  · intro hpres
    rw [eliminar_producto, if_pos hpres]
    refine ⟨rfl, ?_⟩
    intro ops hops
    have h0 : existe_id
        (Inventario.productos ⟨s.bd.filter (fun p => !(p.id == i)),
          s.productos.filter (fun p => !(p.id == i))⟩) i = false := by
      rw [existe_id_false_iff_lookup_none]
      show lookupId (s.productos.filter _) i = none
      rw [lookupId_filter_ne, if_pos rfl]
    have hrun := existe_false_run ops h0 hops
    have habs : ∀ p ∈ (run ⟨s.bd.filter (fun p => !(p.id == i)),
        s.productos.filter (fun p => !(p.id == i))⟩ ops).productos, p.id ≠ i :=
      existe_id_eq_false.mp hrun
    exact ⟨habs, fun nq p hp => habs p (List.mem_of_mem_filter hp)⟩
  · intro habs
    rw [eliminar_producto, if_neg (by rw [habs]; exact Bool.false_ne_true)]

/-- Witness for C6: removing id 1 from `sDemo` succeeds and a later
listing shows no product with id 1; removing id 3 from the empty
repository fails and changes nothing. -/
theorem C6_remove_witness :
    (eliminar_producto sDemo 1).1 = Res.ok true ∧
    eliminar_producto inv0 3 = (Res.ok false, inv0) :=
  ⟨((C6_remove sDemo 1).1 (by decide)).1,
   (C6_remove inv0 3).2 (by decide)⟩

/-- C7: `buscar_por_nombre` (which never fails — it is a pure filter)
returns exactly the products of the mapping whose lowercased name
contains the whitespace-trimmed, lowercased query as a substring; in
particular the query `"queso"` matches the product named
`"Queso Mozzarella 1kg"`. -/
theorem C7_find_by_name :
    (∀ (s : Inventario) (nombre : String) (p : Producto),
      p ∈ buscar_por_nombre s nombre ↔
        p ∈ s.productos ∧
          esSubcadena (pyToLower (pyStrip nombre.toList))
            (pyToLower p.nombre.toList)) ∧
    buscar_por_nombre sQueso "queso" = [pQueso] := by
  constructor
  · intro s nombre p
    rw [buscar_por_nombre, List.mem_filter]
    exact and_congr_right (fun _ => contiene_iff _ _)
  · decide

/-- C8: the seeding routine is a no-op whenever the repository already
holds at least one record; on an empty well-formed repository it
inserts exactly the eight fixed example records, in mapping and store. -/
theorem C8_seed (s : Inventario) (h : WF s) :
    (s.productos ≠ [] → cargar_ejemplo_neos s = s) ∧
    (s.productos = [] → cargar_ejemplo_neos s = ⟨ejemplosNeos, ejemplosNeos⟩) := by
  constructor
  · intro hne
    rw [cargar_ejemplo_neos, if_neg (fun hc : listar_todos s = [] => hne hc)]
  · intro hnil
    have hbd : s.bd = [] := by
      apply eq_nil_of_lookup_none
      intro i
      rw [← h.2.2 i]
      show lookupId s.productos i = none
      rw [hnil]
      rfl
    have hs : s = inv0 := by
      have hEta : s = ⟨s.bd, s.productos⟩ := rfl
      rw [hEta, hbd, hnil]
      rfl
    rw [hs]
    decide

/-- Witness for C8: seeding the empty repository produces the eight
example records; seeding `sDemo` (non-empty) changes nothing. -/
theorem C8_seed_witness :
    cargar_ejemplo_neos inv0 = ⟨ejemplosNeos, ejemplosNeos⟩ ∧
    cargar_ejemplo_neos sDemo = sDemo :=
  ⟨(C8_seed inv0 inv0_WF).2 rfl, (C8_seed sDemo sDemo_WF).1 (by decide)⟩

/-- C9: a query that trims to the empty string (empty or
whitespace-only) makes `buscar_por_nombre` return every product of the
repository. -/
theorem C9_blank_query (s : Inventario) (nombre : String)
    (h : pyStrip nombre.toList = []) :
    buscar_por_nombre s nombre = listar_todos s := by
  rw [buscar_por_nombre, listar_todos, h]
  apply List.filter_eq_self.mpr
  intro p _
  show contiene (pyToLower []) (pyToLower p.nombre.toList) = true
  exact contiene_nil_left _

/-- Witness for C9: a whitespace-only query on `sQueso` returns its
whole catalog. -/
theorem C9_blank_query_witness :
    buscar_por_nombre sQueso "   " = listar_todos sQueso :=
  C9_blank_query sQueso "   " (by decide)
